import Mathlib

/-!
Verification of the Docker attribution & quota engine of the qman slave.

Shallow embedding of:
- `app/docker_quota/attribution_store.py` (layer / volume attribution tables),
- `app/docker_quota/quota.py` (`_aggregate_usage_by_uid`, `get_devices`,
  `collect_remote_quotas`, `collect_remote_quotas_for_uid`),
- `app/docker_quota/attribution_sync.py` (audit best-match loop, event-driven
  cache invalidation, uid selection from audit records,
  `run_sync_docker_attribution` phase sequencing),
- `app/docker_quota/cache.py` (Redis-backed list caches),
- `app/tasks/docker_quota_tasks.py` (per-uid enforcement removal loop),
- `app/quota_common.py` (`should_include_uid`).

Database tables are modelled as association lists of records; Python dicts as
association lists with an add-or-update helper; Python floats (timestamps,
percentages) as rationals; Python ints as `Int`/`Nat`; nullable values as
`Option`.
-/

namespace Qman

/-! ## Python-style rounding (`round(x, 1)`) -/

/-- Python's `round` to the nearest integer, halves to even (banker's
rounding), on a rational. -/
def roundHalfEven (x : ℚ) : ℤ :=
  if x - (⌊x⌋ : ℚ) < 1/2 then ⌊x⌋
  else if 1/2 < x - (⌊x⌋ : ℚ) then ⌊x⌋ + 1
  else if ⌊x⌋ % 2 = 0 then ⌊x⌋ else ⌊x⌋ + 1

/-- Python's `round(x, 1)`: round to one decimal place. -/
def pyRound1 (x : ℚ) : ℚ := (roundHalfEven (x * 10) : ℚ) / 10

theorem roundHalfEven_eq_floor_or (x : ℚ) :
    roundHalfEven x = ⌊x⌋ ∨ (roundHalfEven x = ⌊x⌋ + 1 ∧ 1/2 ≤ x - (⌊x⌋ : ℚ)) := by
  unfold roundHalfEven
  split_ifs with h1 h2 h3
  · exact Or.inl rfl
  · exact Or.inr ⟨rfl, le_of_lt h2⟩
  · exact Or.inl rfl
  · exact Or.inr ⟨rfl, by linarith [not_lt.mp h1]⟩

theorem roundHalfEven_bounds {x : ℚ} {lo hi : ℤ} (hlo : (lo : ℚ) ≤ x) (hhi : x ≤ (hi : ℚ)) :
    lo ≤ roundHalfEven x ∧ roundHalfEven x ≤ hi := by
  have hfl : lo ≤ ⌊x⌋ := Int.le_floor.mpr hlo
  have hfh : ⌊x⌋ ≤ hi := by exact_mod_cast (Int.floor_le x).trans hhi
  rcases roundHalfEven_eq_floor_or x with h | ⟨h, hr⟩
  · omega
  · refine ⟨by omega, ?_⟩
    by_contra hc
    push_neg at hc
    have hfe : ⌊x⌋ = hi := by omega
    have hx0 : x - (⌊x⌋ : ℚ) ≤ 0 := by rw [hfe]; linarith
    linarith

theorem pyRound1_bounds {x : ℚ} {lo hi : ℤ} (hlo : (lo : ℚ) ≤ x) (hhi : x ≤ (hi : ℚ)) :
    (lo : ℚ) ≤ pyRound1 x ∧ pyRound1 x ≤ (hi : ℚ) := by
  have h10lo : ((lo * 10 : ℤ) : ℚ) ≤ x * 10 := by push_cast; linarith
  have h10hi : x * 10 ≤ ((hi * 10 : ℤ) : ℚ) := by push_cast; linarith
  obtain ⟨h1, h2⟩ := roundHalfEven_bounds h10lo h10hi
  unfold pyRound1
  constructor
  · rw [le_div_iff₀ (by norm_num : (0:ℚ) < 10)]
    exact_mod_cast h1
  · rw [div_le_iff₀ (by norm_num : (0:ℚ) < 10)]
    exact_mod_cast h2

/-! ## Association-list helper for Python dict accumulation (`d[k] = d.get(k, 0) + v`) -/

/-- Add `v` to the bucket of key `k` (create the bucket at the end if absent),
mirroring `usage_by_uid[uid] = usage_by_uid.get(uid, 0) + size`. -/
def addToBucket : List (ℤ × ℕ) → ℤ → ℕ → List (ℤ × ℕ)
  | [], k, v => [(k, v)]
  | (k0, v0) :: rest, k, v =>
      if k0 = k then (k0, v0 + v) :: rest else (k0, v0) :: addToBucket rest k v

/-- Sum of the values of a uid-indexed bucket list (`sum(d.values())`). -/
def sumValues (m : List (ℤ × ℕ)) : ℕ := (m.map Prod.snd).sum

/-- `d.get(k, 0)` on a uid-indexed bucket list. -/
def getBucket (m : List (ℤ × ℕ)) (k : ℤ) : ℕ :=
  match m.find? (fun p => p.1 = k) with
  | some p => p.2
  | none => 0

/-! ## Attribution store: layer table (`attribution_store.set_layer_attribution`) -/

/-- One row of the `DockerLayerAttribution` table. -/
structure LayerRecord where
  layer_id : String
  first_puller_host_user_name : String
  first_puller_uid : Option ℤ
  size_bytes : ℕ
  creation_method : Option String
deriving DecidableEq

/-- The layer-attribution table, as the list of its rows. -/
abbrev LayerTable := List LayerRecord

/-- `db.query(DockerLayerAttribution).filter(layer_id == L).first()`. -/
def get_layer_attribution (db : LayerTable) (layer_id : String) : Option LayerRecord :=
  db.find? (fun r => r.layer_id = layer_id)

/-- `attribution_store.set_layer_attribution`: if a row for `layer_id` already
exists the function returns without writing (first creator wins); otherwise it
inserts a new row. -/
def set_layer_attribution (db : LayerTable) (layer_id : String)
    (first_puller_host_user_name : String) (first_puller_uid : Option ℤ)
    (size_bytes : ℕ) (creation_method : Option String) : LayerTable :=
  match db.find? (fun r => r.layer_id = layer_id) with
  | some _ => db
  | none =>
      db ++ [{ layer_id, first_puller_host_user_name, first_puller_uid,
               size_bytes, creation_method }]

/-! ## Attribution store: volume table (`attribution_store.set_volume_attribution`) -/

/-- One row of the `DockerVolumeAttribution` table. -/
structure VolumeRecord where
  volume_name : String
  host_user_name : String
  uid : Option ℤ
  size_bytes : ℕ
  attribution_source : String
deriving DecidableEq

abbrev VolumeTable := List VolumeRecord

/-- `db.query(DockerVolumeAttribution).filter(volume_name == V).first()`. -/
def get_volume_attribution (db : VolumeTable) (volume_name : String) : Option VolumeRecord :=
  db.find? (fun r => r.volume_name = volume_name)

/-- Apply `f` to the first row whose key is `volume_name` (ORM row mutation). -/
def updateVolumeRow : VolumeTable → String → (VolumeRecord → VolumeRecord) → VolumeTable
  | [], _, _ => []
  | r :: rest, vn, f =>
      if r.volume_name = vn then f r :: rest else r :: updateVolumeRow rest vn f

/-- `attribution_store.set_volume_attribution`: on an existing row, a
`label`-sourced write rewrites the owner fields and the source, a
`container`-sourced write only refreshes `size_bytes`; a missing row is
inserted with the given fields. -/
def set_volume_attribution (db : VolumeTable) (volume_name host_user_name : String)
    (uid : Option ℤ) (size_bytes : ℕ) (attribution_source : String) : VolumeTable :=
  match db.find? (fun r => r.volume_name = volume_name) with
  | some _ =>
      updateVolumeRow db volume_name (fun r =>
        if attribution_source = "label" then
          { r with host_user_name := host_user_name, uid := uid,
                   attribution_source := attribution_source, size_bytes := size_bytes }
        else
          { r with size_bytes := size_bytes })
  | none =>
      db ++ [{ volume_name, host_user_name, uid, size_bytes, attribution_source }]

/-! ## Quota aggregation (`quota._aggregate_usage_by_uid`) -/

/-- One row of the `DockerContainerAttribution` table. -/
structure ContainerRecord where
  container_id : String
  host_user_name : String
  uid : Option ℤ
  image_id : Option String
  size_bytes : ℕ
deriving DecidableEq

/-- `cid_to_user[att["container_id"]] = (host_user_name, uid)` lookup
(rows have unique primary keys, so first match is the binding). -/
def cidToUser (attributions : List ContainerRecord) (cid : String) :
    Option (String × Option ℤ) :=
  (attributions.find? (fun a => a.container_id = cid)).map
    (fun a => (a.host_user_name, a.uid))

/-- The `name_to_uid` map of `_aggregate_usage_by_uid`: first a first-wins scan
of attribution rows that carry a uid, then a `pwd.getpwnam` fallback (modelled
by the `pwdb` association list) for names still unresolved. -/
def nameToUid (attributions : List ContainerRecord) (pwdb : List (String × ℤ))
    (name : String) : Option ℤ :=
  match attributions.find? (fun a => a.host_user_name = name ∧ a.uid.isSome) with
  | some a => a.uid
  | none =>
      match attributions.find? (fun a => a.host_user_name = name) with
      | some _ => (pwdb.find? (fun p => p.1 = name)).map Prod.snd
      | none => none

/-- The container-aggregation loop: for each `(cid, size)` of the system-df
report, add `size` to the owner's bucket when the container is attributed and
its uid is known directly or through `name_to_uid`. -/
def containerUsageFold (attributions : List ContainerRecord) (pwdb : List (String × ℤ))
    (container_sizes : List (String × ℕ)) : List (ℤ × ℕ) :=
  container_sizes.foldl (fun usage p =>
    match cidToUser attributions p.1 with
    | none => usage
    | some (_name, some uid) => addToBucket usage uid p.2
    | some (name, none) =>
        match nameToUid attributions pwdb name with
        | some u => addToBucket usage u p.2
        | none => usage) []

/-- The layer-aggregation loop: each attributed layer's size is charged to its
first puller when the uid is recorded. -/
def layerUsageFold (layer_attributions : LayerTable) (usage0 : List (ℤ × ℕ)) :
    List (ℤ × ℕ) :=
  layer_attributions.foldl (fun usage r =>
    match r.first_puller_uid with
    | some uid => addToBucket usage uid r.size_bytes
    | none => usage) usage0

/-- `quota._aggregate_usage_by_uid` (pure core): returns
`(usage_by_uid, total_used, unattributed_bytes)` where
`total_used = Σ container sizes + Σ image sizes` and
`unattributed = max(0, total_used − Σ usage_by_uid.values())`. -/
def aggregate_usage_by_uid (container_sizes image_sizes : List (String × ℕ))
    (attributions : List ContainerRecord) (layer_attributions : LayerTable)
    (pwdb : List (String × ℤ)) : List (ℤ × ℕ) × ℕ × ℕ :=
  let usage_by_uid := layerUsageFold layer_attributions
    (containerUsageFold attributions pwdb container_sizes)
  let total_container_used := (container_sizes.map Prod.snd).sum
  let total_image_used := (image_sizes.map Prod.snd).sum
  let total_used := total_container_used + total_image_used
  let attributed_sum := sumValues usage_by_uid
  let unattributed_bytes := ((total_used : ℤ) - (attributed_sum : ℤ)).toNat
  (usage_by_uid, total_used, unattributed_bytes)

/-! ## The synthetic docker device (`quota.get_devices` / `collect_remote_quotas`) -/

/-- The `usage` sub-dictionary of the docker device payload. -/
structure UsageStat where
  used : ℤ
  total : ℤ
  free : ℤ
  percent : ℚ
deriving DecidableEq

/-- The `else` branch of the device math (no positive `reserved_bytes`
configured): `total = max(Σ user limits × 1024 + unattributed, 1)`. -/
def docker_device_usage_sum_quotas (attributed unattributed : ℕ)
    (limits : List (ℤ × ℕ)) : UsageStat :=
  let sum_quotas_bytes : ℤ := (limits.map (fun p => (p.2 : ℤ) * 1024)).sum
  let total := max (sum_quotas_bytes + (unattributed : ℤ)) 1
  let free := max 0 (total - (attributed : ℤ) - (unattributed : ℤ))
  let percent : ℚ := if total ≠ 0 then ((total : ℚ) - (free : ℚ)) / (total : ℚ) * 100 else 0
  { used := (attributed : ℤ), total := total, free := free, percent := pyRound1 percent }

/-- The shared total/used/free/percent computation of `get_devices`,
`collect_remote_quotas` and `collect_remote_quotas_for_uid`:
reserved mode when `reserved_bytes` is set and positive, otherwise
sum-of-user-limits mode; `percent` is `round((total − free) / total × 100, 1)`. -/
def docker_device_usage (reserved_bytes : Option ℤ) (attributed unattributed : ℕ)
    (limits : List (ℤ × ℕ)) : UsageStat :=
  match reserved_bytes with
  | some r =>
      if 0 < r then
        let total := r
        let free := max 0 (total - (attributed : ℤ) - (unattributed : ℤ))
        let percent : ℚ := if total ≠ 0 then ((total : ℚ) - (free : ℚ)) / (total : ℚ) * 100 else 0
        { used := (attributed : ℤ), total := total, free := free, percent := pyRound1 percent }
      else
        docker_device_usage_sum_quotas attributed unattributed limits
  | none => docker_device_usage_sum_quotas attributed unattributed limits

/-! ## Public quota listing and uid filtering (`quota_common.should_include_uid`,
`quota.collect_remote_quotas`, `quota.collect_remote_quotas_for_uid`) -/

/-- `quota_common.should_include_uid`: `uid >= 1000 and uid != 65534`. -/
def should_include_uid (uid : ℤ) : Bool :=
  1000 ≤ uid ∧ uid ≠ 65534

/-- One entry of `user_quotas` (`quota._user_quota_dict_docker`). -/
structure UserQuotaEntry where
  uid : ℤ
  name : String
  block_hard_limit : ℤ
  block_soft_limit : ℤ
  block_current : ℕ
  inode_hard_limit : ℕ
  inode_soft_limit : ℕ
  inode_current : ℕ
  block_time_limit : ℕ
  inode_time_limit : ℕ
deriving DecidableEq

/-- `quota._user_quota_dict_docker`: `pwd.getpwuid` is modelled by the
`pwdb_by_uid` association list, with the `user_<uid>` fallback name. -/
def user_quota_dict_docker (pwdb_by_uid : List (ℤ × String)) (uid : ℤ)
    (used_bytes : ℕ) (block_hard_limit_1k : ℤ) : UserQuotaEntry :=
  let name := match pwdb_by_uid.find? (fun p => p.1 = uid) with
    | some p => p.2
    | none => "user_" ++ toString uid
  { uid := uid, name := name, block_hard_limit := block_hard_limit_1k,
    block_soft_limit := block_hard_limit_1k, block_current := used_bytes,
    inode_hard_limit := 0, inode_soft_limit := 0, inode_current := 0,
    block_time_limit := 0, inode_time_limit := 0 }

/-- The per-user quota-limit table (`DockerUserQuotaLimit`), as
`uid ↦ block_hard_limit` pairs. -/
abbrev LimitTable := List (ℤ × ℤ)

/-- `attribution_store.get_user_quota_limit`: the row's limit, `0` if unset. -/
def get_user_quota_limit (limits : LimitTable) (uid : ℤ) : ℤ :=
  match limits.find? (fun p => p.1 = uid) with
  | some p => p.2
  | none => 0

/-- `attribution_store.get_all_user_quota_limits`: rows with a positive limit. -/
def get_all_user_quota_limits (limits : LimitTable) : List (ℤ × ℕ) :=
  (limits.filter (fun p => 0 < p.2)).map (fun p => (p.1, p.2.toNat))

/-- The `user_quotas` construction of `quota.collect_remote_quotas`: the sorted
union of uids with a limit or with usage, filtered by `should_include_uid`. -/
def build_user_quotas (pwdb_by_uid : List (ℤ × String)) (limits : List (ℤ × ℕ))
    (usage_by_uid : List (ℤ × ℕ)) : List UserQuotaEntry :=
  let uids := ((limits.map Prod.fst ++ usage_by_uid.map Prod.fst).dedup).mergeSort
    (fun a b => decide (a ≤ b))
  (uids.filter (fun u => should_include_uid u)).map (fun u =>
    user_quota_dict_docker pwdb_by_uid u (getBucket usage_by_uid u)
      ((getBucket limits u : ℕ) : ℤ))

/-- The docker device object (core-relevant fields). -/
structure DockerDevice where
  name : String
  fstype : String
  usage : UsageStat
  user_quotas : List UserQuotaEntry
  unattributed_usage : Option ℕ
deriving DecidableEq

/-- `quota.collect_remote_quotas_for_uid` (pure core): empty list for filtered
uids and for users with neither usage nor a limit; otherwise one docker device
whose `user_quotas` holds only this user's entry. -/
def collect_remote_quotas_for_uid (uid : ℤ) (reserved_bytes : Option ℤ)
    (usage_by_uid : List (ℤ × ℕ)) (unattributed_bytes : ℕ) (limits : LimitTable)
    (pwdb_by_uid : List (ℤ × String)) : List DockerDevice :=
  if ¬ should_include_uid uid then []
  else
    let attributed_total := sumValues usage_by_uid
    let used := getBucket usage_by_uid uid
    let limit_1k := get_user_quota_limit limits uid
    if used = 0 ∧ limit_1k = 0 then []
    else
      let stat := docker_device_usage reserved_bytes attributed_total unattributed_bytes
        (get_all_user_quota_limits limits)
      [{ name := "docker", fstype := "docker", usage := stat,
         user_quotas := [user_quota_dict_docker pwdb_by_uid uid used limit_1k],
         unattributed_usage := if 0 < unattributed_bytes then some unattributed_bytes else none }]

/-! ## Audit time-window matching (`attribution_sync.sync_containers_from_audit`,
lines 253-261, and the identical loops in `sync_from_docker_events`) -/

/-- One iteration of the best-match loop:
`if delta <= TIME_WINDOW_SECONDS and delta < best_delta: update`.
The accumulator is `none` while `best_uid is None` (`best_delta = inf`). -/
def audit_match_step (created_ts : ℚ) (best : Option (ℚ × ℤ)) (e : ℚ × ℤ) :
    Option (ℚ × ℤ) :=
  let delta := |e.1 - created_ts|
  match best with
  | none => if delta ≤ 120 then some (delta, e.2) else none
  | some (bd, bu) => if delta ≤ 120 ∧ delta < bd then some (delta, e.2) else some (bd, bu)

/-- The `for at, uid in audit_by_ts` loop over the remaining records. -/
def audit_best_match_aux (created_ts : ℚ) :
    List (ℚ × ℤ) → Option (ℚ × ℤ) → Option (ℚ × ℤ)
  | [], best => best
  | e :: rest, best => audit_best_match_aux created_ts rest (audit_match_step created_ts best e)

/-- The audit best-match of a container creation time against the (time-sorted)
`(timestamp, uid)` list: the uid attributed by Phase 1 to an unattributed,
unlabeled container with a valid creation timestamp (`None` = left
unattributed). -/
def audit_best_match (audit_by_ts : List (ℚ × ℤ)) (created_ts : ℚ) : Option ℤ :=
  (audit_best_match_aux created_ts audit_by_ts none).map Prod.snd

/-! ## Uid selection from one audit record (`attribution_sync` lines 161 and 328) -/

/-- Python's `a or b` on optional ints: `None` and `0` are falsy. -/
def pyOrInt (a b : Option ℤ) : Option ℤ :=
  match a with
  | none => b
  | some v => if v = 0 then b else some v

/-- The uid fields parsed from one audit record by
`audit_parser._parse_ausearch_output`. -/
structure AuditUidFields where
  auid : Option ℤ
  uid : Option ℤ
  euid : Option ℤ
deriving DecidableEq

/-- `uid = ev.get("auid") or ev.get("uid") or ev.get("euid")`: the uid placed
into the `(timestamp, uid)` matching list for this record (before the
name-resolution fallback, which only runs when this is `None`). -/
def audit_event_uid (ev : AuditUidFields) : Option ℤ :=
  pyOrInt ev.auid (pyOrInt ev.uid ev.euid)

/-! ## Docker list caches and event-driven invalidation
(`cache.py`, `docker_client.list_containers`,
`attribution_sync.sync_from_docker_events` lines 355-370) -/

/-- One cached listing: `{timestamp (stored_at), payload}`. -/
structure CacheEntry where
  stored_at : ℚ
  payload : List String
deriving DecidableEq

/-- The Redis keys used by the engine: the two list caches and the
observability stamp. -/
structure DockerCache where
  containers : Option CacheEntry
  images : Option CacheEntry
  last_invalidation : Option ℚ
deriving DecidableEq

/-- `cache.invalidate_container_cache`: delete the key, stamp the time. -/
def invalidate_container_cache (now : ℚ) (s : DockerCache) : DockerCache :=
  { s with containers := none, last_invalidation := some now }

/-- `cache.invalidate_image_cache`. -/
def invalidate_image_cache (now : ℚ) (s : DockerCache) : DockerCache :=
  { s with images := none, last_invalidation := some now }

/-- `cache.get_cached_containers`: `None` on a missing or expired entry. -/
def get_cached_containers (now ttl : ℚ) (s : DockerCache) : Option (List String) :=
  match s.containers with
  | none => none
  | some e => if now - e.stored_at < ttl then some e.payload else none

/-- `docker_client.list_containers` (cache path): returns
`(listing, read_from_daemon, new cache state)`; a cache hit serves the payload,
a miss reads the daemon listing and stores it. -/
def list_containers_model (now ttl : ℚ) (use_cache : Bool) (daemon : List String)
    (s : DockerCache) : List String × Bool × DockerCache :=
  if use_cache then
    match get_cached_containers now ttl s with
    | some cached => (cached, false, s)
    | none => (daemon, true, { s with containers := some ⟨now, daemon⟩ })
  else (daemon, true, s)

/-- One Docker event as consumed by `sync_from_docker_events`. The `type` and
`action` fields model the loop's `typ`/`action` locals, i.e. the event's
fields already passed through `.lower()`; an absent id is modelled by the
empty string, matching Python falsiness in `if not eid`. -/
structure DockerEvent where
  type : String
  action : String
  id : String
  time_nano : Option ℤ
deriving DecidableEq

/-- `typ == "container" and action in ("create","destroy","die","kill","start","stop")`. -/
def is_mutating_container_event (ev : DockerEvent) : Bool :=
  ev.type = "container" ∧
    (["create", "destroy", "die", "kill", "start", "stop"].contains ev.action)

/-- `typ == "image" and action in ("pull","push","tag","untag","delete","remove")`. -/
def is_mutating_image_event (ev : DockerEvent) : Bool :=
  ev.type = "image" ∧
    (["pull", "push", "tag", "untag", "delete", "remove"].contains ev.action)

/-- The cache-invalidation effect of the event loop of
`sync_from_docker_events`: the boolean is the loop's single `cache_invalidated`
flag; events with falsy id are skipped before the invalidation check. -/
def cache_invalidation_loop (now : ℚ) :
    List DockerEvent → DockerCache → Bool → DockerCache
  | [], s, _ => s
  | ev :: rest, s, invalidated =>
      if ev.id = "" then cache_invalidation_loop now rest s invalidated
      else if invalidated then cache_invalidation_loop now rest s invalidated
      else if is_mutating_container_event ev then
        cache_invalidation_loop now rest (invalidate_container_cache now s) true
      else if is_mutating_image_event ev then
        cache_invalidation_loop now rest (invalidate_image_cache now s) true
      else cache_invalidation_loop now rest s invalidated

/-- One `sync_from_docker_events` pass, restricted to its cache effects
(attribution writes do not touch the caches). -/
def cache_invalidation_pass (now : ℚ) (events : List DockerEvent) (s : DockerCache) :
    DockerCache :=
  cache_invalidation_loop now events s false

/-- The first event of the list that would trigger an invalidation. -/
def first_mutating_event (events : List DockerEvent) : Option DockerEvent :=
  events.find? (fun ev =>
    ev.id ≠ "" ∧ (is_mutating_container_event ev ∨ is_mutating_image_event ev))

/-! ## Enforcement removal loop (`docker_quota_tasks.enforce_docker_quota`,
lines 137-165) -/

/-- One candidate container of the per-uid enforcement loop:
`(container_id, size_bytes, created_ts)` as sorted by the configured policy. -/
structure EnforcementCandidate where
  cid : String
  size : ℕ
  created : ℚ
deriving DecidableEq

/-- The per-uid removal loop of `enforce_docker_quota` over an abstract world
state `σ`: `usage` re-runs `_aggregate_usage_by_uid` for the uid (recomputed at
the top of every iteration), `stopC`/`removeC` are `stop_container` /
`remove_container` (the boolean is their success flag; on failure the loop
proceeds to the next candidate), `deleteAttribution` is
`delete_container_attribution`. Returns the final state and the candidates
never reached (`break` leaves them unprocessed). -/
def enforce_removal_loop {σ : Type} (usage : σ → ℕ) (stopC : σ → String → σ × Bool)
    (removeC : σ → String → σ × Bool) (deleteAttribution : σ → String → σ)
    (limit_bytes : ℕ) : σ → List EnforcementCandidate → σ × List EnforcementCandidate
  | s, [] => (s, [])
  | s, c :: rest =>
      if usage s ≤ limit_bytes then (s, c :: rest)
      else
        let stopped := stopC s c.cid
        if stopped.2 then
          let removed := removeC stopped.1 c.cid
          if removed.2 then
            enforce_removal_loop usage stopC removeC deleteAttribution limit_bytes
              (deleteAttribution removed.1 c.cid) rest
          else
            enforce_removal_loop usage stopC removeC deleteAttribution limit_bytes
              removed.1 rest
        else
          enforce_removal_loop usage stopC removeC deleteAttribution limit_bytes
            stopped.1 rest

/-! ## Synchroniser pass sequencing (`attribution_sync.run_sync_docker_attribution`) -/

/-- `run_sync_docker_attribution`, with the three phase bodies abstracted by
their outcomes: the source runs `a = sync_containers_from_audit()`,
`b = sync_from_docker_events()`, `c = sync_existing_images()` in order with no
try/except around any phase, then returns the summary dict
`{"from_audit": a, "from_events": b, "existing_images": c}`. A raised error is
an `Except.error` that propagates. (The preliminary `check_auditd_status` call
is wrapped in try/except in the source and cannot abort the pass, so it does
not appear here.) -/
def run_sync_docker_attribution (phase_audit phase_events phase_images : Except String ℕ) :
    Except String (ℕ × ℕ × ℕ) := do
  let a ← phase_audit
  let b ← phase_events
  let c ← phase_images
  pure (a, b, c)

/-- How many of the three phases are entered when the pass runs: a phase whose
predecessor raised is never started. -/
def phases_executed (phase_audit phase_events : Except String ℕ) : ℕ :=
  match phase_audit with
  | .error _ => 1
  | .ok _ =>
      match phase_events with
      | .error _ => 2
      | .ok _ => 3

/-! ## Generic association-list lemmas -/

theorem find_append_of_none {α : Type} (p : α → Bool) {l₁ : List α} (l₂ : List α)
    (h : l₁.find? p = none) : (l₁ ++ l₂).find? p = l₂.find? p := by
  induction l₁ with
  | nil => simp
  | cons a t ih =>
      rw [List.find?_cons] at h
      cases hp : p a with
      | true => rw [hp] at h; exact absurd h (by simp)
      | false =>
          rw [hp] at h
          simpa [List.find?_cons, hp] using ih h

theorem get_volume_updateRow (db : VolumeTable) (vn : String)
    (f : VolumeRecord → VolumeRecord) (hf : ∀ r, (f r).volume_name = r.volume_name) :
    get_volume_attribution (updateVolumeRow db vn f) vn =
      (get_volume_attribution db vn).map f := by
  induction db with
  | nil => simp [updateVolumeRow, get_volume_attribution]
  | cons r rest ih =>
      by_cases h : r.volume_name = vn
      · simp [updateVolumeRow, get_volume_attribution, h, List.find?_cons, hf]
      · simp only [updateVolumeRow, if_neg h]
        simp only [get_volume_attribution, List.find?_cons] at ih ⊢
        simp [h, ih]

/-! ## C1: first-writer-wins for layer attributions -/

/-- C1: first-writer-wins for layer attributions. If no row exists for layer
`L` and `set_layer_attribution(L, owner_A, …)` is executed followed by
`set_layer_attribution(L, owner_B, …)` with a different owner, every
subsequent read of the table returns owner A's row for `L`, and the second
call leaves the table exactly as the first call left it (it changes no field);
moreover, whenever a row exists for a layer, `set_layer_attribution` leaves
the whole table unchanged, so only deletion/reconciliation can remove the
row. -/
theorem c1_layer_first_writer_wins :
    (∀ (db : LayerTable) (L nA nB : String) (uA uB : Option ℤ) (sA sB : ℕ)
        (mA mB : Option String),
      get_layer_attribution db L = none → uA ≠ uB →
      get_layer_attribution
          (set_layer_attribution (set_layer_attribution db L nA uA sA mA) L nB uB sB mB) L =
        some ⟨L, nA, uA, sA, mA⟩ ∧
      set_layer_attribution (set_layer_attribution db L nA uA sA mA) L nB uB sB mB =
        set_layer_attribution db L nA uA sA mA) ∧
    (∀ (db : LayerTable) (L : String) (r : LayerRecord) (n : String) (u : Option ℤ)
        (s : ℕ) (m : Option String),
      get_layer_attribution db L = some r →
      set_layer_attribution db L n u s m = db) := by
  constructor
  · intro db L nA nB uA uB sA sB mA mB hnone _hne
    have hnone' : db.find? (fun r => r.layer_id = L) = none := hnone
    have h1 : set_layer_attribution db L nA uA sA mA =
        db ++ [⟨L, nA, uA, sA, mA⟩] := by
      unfold set_layer_attribution
      rw [hnone']
    have hfind : (db ++ [(⟨L, nA, uA, sA, mA⟩ : LayerRecord)]).find?
        (fun r => r.layer_id = L) = some ⟨L, nA, uA, sA, mA⟩ := by
      rw [find_append_of_none _ _ hnone']
      simp
    have h2 : set_layer_attribution (db ++ [(⟨L, nA, uA, sA, mA⟩ : LayerRecord)]) L nB uB sB mB =
        db ++ [⟨L, nA, uA, sA, mA⟩] := by
      unfold set_layer_attribution
      rw [hfind]
    constructor
    · rw [h1, h2]
      exact hfind
    · rw [h1, h2]
  · intro db L r n u s m hsome
    have hsome' : db.find? (fun x => x.layer_id = L) = some r := hsome
    unfold set_layer_attribution
    rw [hsome']

/-- C1 witness: on the empty table, after writing layer `l1` for uid 1001 and
then for uid 1002, the read returns the uid-1001 row. -/
theorem c1_layer_first_writer_wins_witness :
    get_layer_attribution [] "l1" = none ∧ (some (1001:ℤ) : Option ℤ) ≠ some 1002 ∧
    get_layer_attribution
        (set_layer_attribution (set_layer_attribution [] "l1" "alice" (some 1001) 5 (some "pull"))
          "l1" "bob" (some 1002) 7 (some "build")) "l1" =
      some ⟨"l1", "alice", some 1001, 5, some "pull"⟩ :=
  ⟨by decide, by decide,
    (c1_layer_first_writer_wins.1 [] "l1" "alice" "bob" (some 1001) (some 1002) 5 7
      (some "pull") (some "build") (by decide) (by decide)).1⟩

/-! ## C2: enforcement convergence -/

/-- C2: enforcement convergence. For every world state, usage function,
stop/remove/delete behaviours, byte limit, and candidate list, the per-uid
removal loop of `enforce_docker_quota` exits with the recomputed usage at or
under the limit, or with every candidate processed (no unprocessed remainder):
it never exits over limit while unprocessed candidates remain. -/
theorem c2_enforcement_convergence {σ : Type} (usage : σ → ℕ)
    (stopC removeC : σ → String → σ × Bool) (deleteAttribution : σ → String → σ)
    (limit_bytes : ℕ) (s : σ) (cs : List EnforcementCandidate) :
    usage (enforce_removal_loop usage stopC removeC deleteAttribution limit_bytes s cs).1
        ≤ limit_bytes ∨
    (enforce_removal_loop usage stopC removeC deleteAttribution limit_bytes s cs).2 = [] := by
  induction cs generalizing s with
  | nil => right; rfl
  | cons c rest ih =>
      by_cases h : usage s ≤ limit_bytes
      · left
        simp only [enforce_removal_loop, if_pos h]
        exact h
      · simp only [enforce_removal_loop, if_neg h]
        by_cases hstop : (stopC s c.cid).2
        · simp only [hstop, if_true]
          by_cases hrem : (removeC (stopC s c.cid).1 c.cid).2
          · simp only [hrem, if_true]; exact ih _
          · simp only [hrem, if_false]; exact ih _
        · simp only [hstop, if_false]; exact ih _

/-! ## C6: volume attribution label precedence -/

/-- C6: label precedence for volume attributions. On an existing row, a
label-sourced write rewrites the owner fields and sets the source to `label`;
a container-sourced write keeps the owner and source and updates only
`size_bytes`; consequently, for a fresh volume, container-then-label and
label-then-container sequences both leave the label's owner on the row. -/
theorem c6_volume_label_precedence :
    (∀ (db : VolumeTable) (vn : String) (r : VolumeRecord) (nL : String)
        (uL : Option ℤ) (sL : ℕ),
      get_volume_attribution db vn = some r →
      get_volume_attribution (set_volume_attribution db vn nL uL sL "label") vn =
        some { r with host_user_name := nL, uid := uL,
                      attribution_source := "label", size_bytes := sL }) ∧
    (∀ (db : VolumeTable) (vn : String) (r : VolumeRecord) (nC : String)
        (uC : Option ℤ) (sC : ℕ),
      get_volume_attribution db vn = some r →
      get_volume_attribution (set_volume_attribution db vn nC uC sC "container") vn =
        some { r with size_bytes := sC }) ∧
    (∀ (db : VolumeTable) (vn nC nL : String) (uC uL : Option ℤ) (sC sL : ℕ),
      get_volume_attribution db vn = none →
      get_volume_attribution
          (set_volume_attribution (set_volume_attribution db vn nC uC sC "container")
            vn nL uL sL "label") vn =
        some ⟨vn, nL, uL, sL, "label"⟩ ∧
      get_volume_attribution
          (set_volume_attribution (set_volume_attribution db vn nL uL sL "label")
            vn nC uC sC "container") vn =
        some ⟨vn, nL, uL, sC, "label"⟩) := by
  have hlabel : ∀ (db : VolumeTable) (vn : String) (r : VolumeRecord) (nL : String)
      (uL : Option ℤ) (sL : ℕ),
      get_volume_attribution db vn = some r →
      get_volume_attribution (set_volume_attribution db vn nL uL sL "label") vn =
        some { r with host_user_name := nL, uid := uL,
                      attribution_source := "label", size_bytes := sL } := by
    intro db vn r nL uL sL hsome
    unfold set_volume_attribution
    unfold get_volume_attribution at hsome
    rw [hsome]
    rw [get_volume_updateRow db vn _ (by intro r'; simp)]
    unfold get_volume_attribution
    rw [hsome]
    simp
  have hcont : ∀ (db : VolumeTable) (vn : String) (r : VolumeRecord) (nC : String)
      (uC : Option ℤ) (sC : ℕ),
      get_volume_attribution db vn = some r →
      get_volume_attribution (set_volume_attribution db vn nC uC sC "container") vn =
        some { r with size_bytes := sC } := by
    intro db vn r nC uC sC hsome
    unfold set_volume_attribution
    unfold get_volume_attribution at hsome
    rw [hsome]
    rw [get_volume_updateRow db vn _ (by intro r'; simp)]
    unfold get_volume_attribution
    rw [hsome]
    simp
  refine ⟨hlabel, hcont, ?_⟩
  intro db vn nC nL uC uL sC sL hnone
  have hfresh : ∀ (n : String) (u : Option ℤ) (s : ℕ) (src : String),
      get_volume_attribution (set_volume_attribution db vn n u s src) vn =
        some ⟨vn, n, u, s, src⟩ := by
    intro n u s src
    unfold set_volume_attribution
    unfold get_volume_attribution at hnone ⊢
    rw [hnone]
    rw [find_append_of_none _ _ hnone]
    simp
  constructor
  · rw [hlabel _ _ _ nL uL sL (hfresh nC uC sC "container")]
  · rw [hcont _ _ _ nC uC sC (hfresh nL uL sL "label")]

/-- C6 witness: on the empty table, a container-sourced write for volume `v`
by uid 1001 followed by a label-sourced write by uid 1002 leaves uid 1002 as
the owner with source `label`. -/
theorem c6_volume_label_precedence_witness :
    get_volume_attribution [] "v" = none ∧
    get_volume_attribution
        (set_volume_attribution (set_volume_attribution [] "v" "alice" (some 1001) 3 "container")
          "v" "bob" (some 1002) 9 "label") "v" =
      some ⟨"v", "bob", some 1002, 9, "label"⟩ :=
  ⟨by decide,
    (c6_volume_label_precedence.2.2 [] "v" "alice" "bob" (some 1001) (some 1002) 3 9
      (by decide)).1⟩

/-! ## C7: phase-failure isolation in the synchroniser pass -/

/-- C7 counterexample: the claim that a raised error in a phase is caught, the
later phases still run, and a summary dictionary is returned is false on the
code. With phase 1 raising and the two later phases able to succeed, the pass
propagates the error, returns no summary, and never starts phases 2 and 3. -/
theorem c7_phase_failure_counterexample :
    run_sync_docker_attribution (.error "boom") (.ok 0) (.ok 0) = .error "boom" ∧
    (∀ v, run_sync_docker_attribution (.error "boom") (.ok 0) (.ok 0) ≠ .ok v) ∧
    phases_executed (.error "boom") (.ok 0) = 1 := by
  refine ⟨rfl, ?_, rfl⟩
  intro v h
  exact absurd h (by simp [run_sync_docker_attribution, Bind.bind, Except.bind])

/-- C7 amended: a failure raised inside any of the three phases of
`run_sync_docker_attribution` propagates out of the pass, the phases after the
failing one never run, and no summary is returned; only when all three phases
succeed does the task return the summary of counts
`(from_audit, from_events, existing_images)`. -/
theorem c7_phase_failure_amended (phase_audit phase_events phase_images : Except String ℕ) :
    (∀ e, phase_audit = .error e →
      run_sync_docker_attribution phase_audit phase_events phase_images = .error e ∧
      phases_executed phase_audit phase_events = 1) ∧
    (∀ a e, phase_audit = .ok a → phase_events = .error e →
      run_sync_docker_attribution phase_audit phase_events phase_images = .error e ∧
      phases_executed phase_audit phase_events = 2) ∧
    (∀ a b e, phase_audit = .ok a → phase_events = .ok b → phase_images = .error e →
      run_sync_docker_attribution phase_audit phase_events phase_images = .error e ∧
      phases_executed phase_audit phase_events = 3) ∧
    (∀ a b c, phase_audit = .ok a → phase_events = .ok b → phase_images = .ok c →
      run_sync_docker_attribution phase_audit phase_events phase_images = .ok (a, b, c)) := by
  refine ⟨?_, ?_, ?_, ?_⟩
  · intro e h1; subst h1; exact ⟨rfl, rfl⟩
  · intro a e h1 h2; subst h1; subst h2; exact ⟨rfl, rfl⟩
  · intro a b e h1 h2 h3; subst h1; subst h2; subst h3; exact ⟨rfl, rfl⟩
  · intro a b c h1 h2 h3; subst h1; subst h2; subst h3; rfl

/-- C7 amended witness: with phase 2 failing, the pass returns that error and
phase 3 never runs. -/
theorem c7_phase_failure_amended_witness :
    run_sync_docker_attribution (.ok 1) (.error "events down") (.ok 2) = .error "events down" ∧
    phases_executed (.ok 1) (.error "events down") = 2 :=
  (c7_phase_failure_amended (.ok 1) (.error "events down") (.ok 2)).2.1 1 "events down" rfl rfl

/-! ## C9: initiator identity preference -/

/-- C9 counterexample: the claim that the initiator uid is used for every
possible value of the initiator uid is false. An audit record with initiator
uid 0 (root) and effective uid 1001 yields uid 1001 for the matching list,
because Python's `or` chain treats the integer 0 as falsy. -/
theorem c9_initiator_uid_counterexample :
    audit_event_uid ⟨some 0, some 1001, none⟩ = some 1001 ∧
    audit_event_uid ⟨some 0, some 1001, none⟩ ≠ some 0 := by
  exact ⟨rfl, by decide⟩

/-- C9 amended: when both an initiator uid and an effective/real uid parse as
numeric, the initiator uid is used whenever it is nonzero; a parsed initiator
uid of exactly 0 is treated like a missing one (Python falsiness) and the code
falls back to `uid`, then `euid`. -/
theorem c9_initiator_uid_amended (ev : AuditUidFields) :
    (∀ a, ev.auid = some a → a ≠ 0 → audit_event_uid ev = some a) ∧
    (ev.auid = some 0 → audit_event_uid ev = pyOrInt ev.uid ev.euid) ∧
    (ev.auid = none → audit_event_uid ev = pyOrInt ev.uid ev.euid) := by
  refine ⟨?_, ?_, ?_⟩
  · intro a h ha
    simp [audit_event_uid, pyOrInt, h, ha]
  · intro h
    simp [audit_event_uid, pyOrInt, h]
  · intro h
    simp [audit_event_uid, pyOrInt, h]

/-- C9 amended witness: a sudo-wrapped record with initiator uid 1001 and
effective uid 0 is attributed to uid 1001. -/
theorem c9_initiator_uid_amended_witness :
    audit_event_uid ⟨some 1001, some 0, some 0⟩ = some 1001 :=
  (c9_initiator_uid_amended ⟨some 1001, some 0, some 0⟩).1 1001 rfl (by decide)

/-! ## C3: reserved-bytes device math -/

/-- C3: reserved-bytes device math. Whenever a positive `reserved_bytes` is
configured, the synthetic docker device reports `total = reserved_bytes`,
`used = Σ usage_by_uid`, `free = max(0, total − used − unattributed)` and
`percent = round((total − free) / total × 100, 1)`; in particular for
`reserved_bytes = 10_000_000`,
`usage_by_uid = {1001: 3_000_000, 1002: 1_000_000}`,
`unattributed = 500_000` the payload is `total = 10_000_000`,
`used = 4_000_000`, `free = 5_500_000`, `percent = 45.0`. -/
theorem c3_reserved_bytes_device_math (r : ℤ) (hr : 0 < r)
    (usage_by_uid : List (ℤ × ℕ)) (unattributed : ℕ) (limits : List (ℤ × ℕ)) :
    ((docker_device_usage (some r) (sumValues usage_by_uid) unattributed limits).total = r ∧
     (docker_device_usage (some r) (sumValues usage_by_uid) unattributed limits).used =
       (sumValues usage_by_uid : ℤ) ∧
     (docker_device_usage (some r) (sumValues usage_by_uid) unattributed limits).free =
       max 0 (r - (sumValues usage_by_uid : ℤ) - (unattributed : ℤ)) ∧
     (docker_device_usage (some r) (sumValues usage_by_uid) unattributed limits).percent =
       pyRound1 (((r : ℚ) -
         ((docker_device_usage (some r) (sumValues usage_by_uid) unattributed limits).free : ℚ))
           / (r : ℚ) * 100)) ∧
    docker_device_usage (some 10000000)
        (sumValues [((1001 : ℤ), 3000000), ((1002 : ℤ), 1000000)]) 500000 [] =
      { used := 4000000, total := 10000000, free := 5500000, percent := 45 } := by
  constructor
  · have hne : r ≠ 0 := ne_of_gt hr
    refine ⟨?_, ?_, ?_, ?_⟩ <;> simp [docker_device_usage, if_pos hr, hne]
  · simp only [docker_device_usage, sumValues, List.map, List.sum]
    norm_num [pyRound1, roundHalfEven, UsageStat.mk.injEq]

/-- C3 witness: the theorem applied at the claim's literal input. -/
theorem c3_reserved_bytes_device_math_witness :
    (0 : ℤ) < 10000000 ∧
    (docker_device_usage (some 10000000)
        (sumValues [((1001 : ℤ), 3000000), ((1002 : ℤ), 1000000)]) 500000 []).total =
      10000000 :=
  ⟨by decide,
    (c3_reserved_bytes_device_math 10000000 (by decide)
      [((1001 : ℤ), 3000000), ((1002 : ℤ), 1000000)] 500000 []).1.1⟩

/-! ## C10: implicit system-uid filtering of the public quota listing -/

/-- C10: system-uid filtering. Every entry of the `user_quotas` array built by
`collect_remote_quotas` has `uid ≥ 1000` and `uid ≠ 65534`, and
`collect_remote_quotas_for_uid` returns the empty device list for every uid
below 1000 or equal to 65534, regardless of usage or configured limit. -/
theorem c10_system_uid_filtering :
    (∀ (pwdb_by_uid : List (ℤ × String)) (limits usage_by_uid : List (ℤ × ℕ))
        (e : UserQuotaEntry), e ∈ build_user_quotas pwdb_by_uid limits usage_by_uid →
      1000 ≤ e.uid ∧ e.uid ≠ 65534) ∧
    (∀ (uid : ℤ) (reserved_bytes : Option ℤ) (usage_by_uid : List (ℤ × ℕ))
        (unattributed_bytes : ℕ) (limits : LimitTable) (pwdb_by_uid : List (ℤ × String)),
      uid < 1000 ∨ uid = 65534 →
      collect_remote_quotas_for_uid uid reserved_bytes usage_by_uid unattributed_bytes
        limits pwdb_by_uid = []) := by
  constructor
  · intro pwdb limits usage e he
    unfold build_user_quotas at he
    rw [List.mem_map] at he
    obtain ⟨u, hu, rfl⟩ := he
    rw [List.mem_filter] at hu
    have hinc : should_include_uid u = true := hu.2
    have : 1000 ≤ u ∧ u ≠ 65534 := by simpa [should_include_uid] using hinc
    simpa [user_quota_dict_docker] using this
  · intro uid reserved usage unattr limits pwdb h
    have hinc : ¬ (should_include_uid uid = true) := by
      simp only [should_include_uid, decide_eq_true_eq]
      rcases h with h | h
      · intro hc
        exact absurd hc.1 (by omega)
      · intro hc
        exact hc.2 h
    unfold collect_remote_quotas_for_uid
    simp [hinc]

/-- C10 witness: uid 1500 appears in a listing, and the per-user endpoint
returns the empty device list for uid 0 even though that uid has usage and a
limit. -/
theorem c10_system_uid_filtering_witness :
    ((user_quota_dict_docker [] 1500 0 5) ∈ build_user_quotas [] [((1500 : ℤ), 5)] [] →
      1000 ≤ (user_quota_dict_docker [] 1500 0 5).uid) ∧
    ((0 : ℤ) < 1000 ∨ (0 : ℤ) = 65534) ∧
    collect_remote_quotas_for_uid 0 none [((0 : ℤ), 7)] 0 [((0 : ℤ), 4)] [] = [] :=
  ⟨fun hm => (c10_system_uid_filtering.1 [] [((1500 : ℤ), 5)] [] _ hm).1,
   Or.inl (by decide),
   c10_system_uid_filtering.2 0 none [((0 : ℤ), 7)] 0 [((0 : ℤ), 4)] [] (Or.inl (by decide))⟩

/-! ## C8: event-driven cache invalidation -/

theorem cache_invalidation_loop_flag_true (now : ℚ) (events : List DockerEvent)
    (s : DockerCache) : cache_invalidation_loop now events s true = s := by
  induction events with
  | nil => rfl
  | cons e t ih => by_cases h : e.id = "" <;> simp [cache_invalidation_loop, h, ih]

theorem mutating_container_not_image (ev : DockerEvent)
    (h : is_mutating_container_event ev = true) : is_mutating_image_event ev = false := by
  simp only [is_mutating_container_event, decide_eq_true_eq] at h
  simp only [is_mutating_image_event, decide_eq_false_iff_not]
  intro hc
  rw [h.1] at hc
  exact absurd hc.1 (by decide)

theorem mutating_image_not_container (ev : DockerEvent)
    (h : is_mutating_image_event ev = true) : is_mutating_container_event ev = false := by
  simp only [is_mutating_image_event, decide_eq_true_eq] at h
  simp only [is_mutating_container_event, decide_eq_false_iff_not]
  intro hc
  rw [h.1] at hc
  exact absurd hc.1 (by decide)

theorem cache_loop_skip_event (now : ℚ) (e : DockerEvent) (t : List DockerEvent)
    (s : DockerCache)
    (h : ¬ (e.id ≠ "" ∧ (is_mutating_container_event e = true ∨
      is_mutating_image_event e = true))) :
    cache_invalidation_loop now (e :: t) s false = cache_invalidation_loop now t s false := by
  rw [not_and_or, not_not, not_or] at h
  rcases h with hid | ⟨hcc, hii⟩
  · simp [cache_invalidation_loop, hid]
  · rw [Bool.not_eq_true] at hcc hii
    by_cases hid : e.id = ""
    · simp [cache_invalidation_loop, hid]
    · simp [cache_invalidation_loop, hid, hcc, hii]

theorem first_mutating_event_cons_skip (e : DockerEvent) (t : List DockerEvent)
    (h : ¬ (e.id ≠ "" ∧ (is_mutating_container_event e = true ∨
      is_mutating_image_event e = true))) :
    first_mutating_event (e :: t) = first_mutating_event t := by
  unfold first_mutating_event
  exact List.find?_cons_of_neg _ (by simpa using h)

theorem cache_pass_of_no_mutating (now : ℚ) (events : List DockerEvent) (s : DockerCache)
    (h : first_mutating_event events = none) :
    cache_invalidation_pass now events s = s := by
  induction events generalizing s with
  | nil => rfl
  | cons e t ih =>
      by_cases hp : (e.id ≠ "" ∧ (is_mutating_container_event e = true ∨
          is_mutating_image_event e = true))
      · rw [first_mutating_event, List.find?_cons_of_pos _ (by simpa using hp)] at h
        exact absurd h (by simp)
      · rw [first_mutating_event_cons_skip e t hp] at h
        unfold cache_invalidation_pass at ih ⊢
        rw [cache_loop_skip_event now e t s hp]
        exact ih s h

theorem cache_pass_of_first_container (now : ℚ) (events : List DockerEvent) (s : DockerCache)
    (ev : DockerEvent) (h : first_mutating_event events = some ev)
    (hc : is_mutating_container_event ev = true) :
    cache_invalidation_pass now events s = invalidate_container_cache now s := by
  induction events generalizing s with
  | nil => exact absurd h (by simp [first_mutating_event])
  | cons e t ih =>
      by_cases hp : (e.id ≠ "" ∧ (is_mutating_container_event e = true ∨
          is_mutating_image_event e = true))
      · rw [first_mutating_event, List.find?_cons_of_pos _ (by simpa using hp)] at h
        have hev : e = ev := by simpa using h
        subst hev
        unfold cache_invalidation_pass
        simp only [cache_invalidation_loop, if_neg hp.1]
        simp [hc, cache_invalidation_loop_flag_true]
      · rw [first_mutating_event_cons_skip e t hp] at h
        unfold cache_invalidation_pass at ih ⊢
        rw [cache_loop_skip_event now e t s hp]
        exact ih s h

theorem cache_pass_of_first_image (now : ℚ) (events : List DockerEvent) (s : DockerCache)
    (ev : DockerEvent) (h : first_mutating_event events = some ev)
    (hi : is_mutating_image_event ev = true) :
    cache_invalidation_pass now events s = invalidate_image_cache now s := by
  induction events generalizing s with
  | nil => exact absurd h (by simp [first_mutating_event])
  | cons e t ih =>
      by_cases hp : (e.id ≠ "" ∧ (is_mutating_container_event e = true ∨
          is_mutating_image_event e = true))
      · rw [first_mutating_event, List.find?_cons_of_pos _ (by simpa using hp)] at h
        have hev : e = ev := by simpa using h
        subst hev
        have hcf : is_mutating_container_event e = false :=
          mutating_image_not_container e hi
        unfold cache_invalidation_pass
        simp only [cache_invalidation_loop, if_neg hp.1]
        simp [hcf, hi, cache_invalidation_loop_flag_true]
      · rw [first_mutating_event_cons_skip e t hp] at h
        unfold cache_invalidation_pass at ih ⊢
        rw [cache_loop_skip_event now e t s hp]
        exact ih s h

/-- C8 counterexample: the claim that one `sync_from_docker_events` pass over
an event list containing both a mutating container action and a mutating image
action invalidates both caches is false on the code. With both caches primed
and the events `[container/create, image/pull]`, the single
`cache_invalidated` flag stops after the container invalidation: the image
cache is still primed after the pass. -/
theorem c8_cache_invalidation_counterexample :
    is_mutating_container_event ⟨"container", "create", "c1", some 1000⟩ = true ∧
    is_mutating_image_event ⟨"image", "pull", "busybox:latest", some 2000⟩ = true ∧
    (cache_invalidation_pass 5
        [⟨"container", "create", "c1", some 1000⟩,
         ⟨"image", "pull", "busybox:latest", some 2000⟩]
        ⟨some ⟨0, ["a"]⟩, some ⟨0, ["img"]⟩, none⟩).containers = none ∧
    (cache_invalidation_pass 5
        [⟨"container", "create", "c1", some 1000⟩,
         ⟨"image", "pull", "busybox:latest", some 2000⟩]
        ⟨some ⟨0, ["a"]⟩, some ⟨0, ["img"]⟩, none⟩).images = some ⟨0, ["img"]⟩ := by
  refine ⟨by decide, by decide, by decide, by decide⟩

/-- C8 amended: during one `sync_from_docker_events` pass, only the first
event with a non-empty id and a mutating action triggers an invalidation, and
it invalidates only the cache corresponding to its own kind: a
container-mutating first event empties the container cache and leaves the
image cache untouched, an image-mutating first event does the reverse, and a
pass with no mutating event leaves the cache state unchanged. In particular,
when the first mutating event is a container destroy, the next
`list_containers` call with caching enabled observes a miss and reads from
the daemon. -/
theorem c8_cache_invalidation_amended (now : ℚ) (events : List DockerEvent)
    (s : DockerCache) :
    (first_mutating_event events = none → cache_invalidation_pass now events s = s) ∧
    (∀ ev, first_mutating_event events = some ev →
      is_mutating_container_event ev = true →
      (cache_invalidation_pass now events s).containers = none ∧
      (cache_invalidation_pass now events s).images = s.images) ∧
    (∀ ev, first_mutating_event events = some ev →
      is_mutating_image_event ev = true →
      (cache_invalidation_pass now events s).images = none ∧
      (cache_invalidation_pass now events s).containers = s.containers) ∧
    (∀ (now2 ttl : ℚ) (daemon : List String),
      (cache_invalidation_pass now events s).containers = none →
      (list_containers_model now2 ttl true daemon
        (cache_invalidation_pass now events s)).2.1 = true) := by
  refine ⟨?_, ?_, ?_, ?_⟩
  · exact cache_pass_of_no_mutating now events s
  · intro ev h hc
    rw [cache_pass_of_first_container now events s ev h hc]
    exact ⟨rfl, rfl⟩
  · intro ev h hi
    rw [cache_pass_of_first_image now events s ev h hi]
    exact ⟨rfl, rfl⟩
  · intro now2 ttl daemon h
    simp [list_containers_model, get_cached_containers, h]

/-- C8 amended witness: a destroy event as the first mutating event empties
the container cache, and the next cached `list_containers` goes to the
daemon. -/
theorem c8_cache_invalidation_amended_witness :
    (cache_invalidation_pass 5 [⟨"container", "destroy", "c1", some 1000⟩]
        ⟨some ⟨0, ["a"]⟩, some ⟨0, ["img"]⟩, none⟩).containers = none ∧
    (list_containers_model 6 600 true ["b"]
        (cache_invalidation_pass 5 [⟨"container", "destroy", "c1", some 1000⟩]
          ⟨some ⟨0, ["a"]⟩, some ⟨0, ["img"]⟩, none⟩)).2.1 = true := by
  have h := c8_cache_invalidation_amended 5 [⟨"container", "destroy", "c1", some 1000⟩]
    ⟨some ⟨0, ["a"]⟩, some ⟨0, ["img"]⟩, none⟩
  have hcont := (h.2.1 ⟨"container", "destroy", "c1", some 1000⟩ (by decide) (by decide)).1
  exact ⟨hcont, h.2.2.2 6 600 ["b"] hcont⟩

/-! ## C5: non-negativity and bounds of the aggregate report -/

theorem device_percent_raw_bounds {total free : ℤ} (ht : 0 < total) (h0 : 0 ≤ free)
    (hf : free ≤ total) :
    0 ≤ ((total : ℚ) - (free : ℚ)) / (total : ℚ) * 100 ∧
    ((total : ℚ) - (free : ℚ)) / (total : ℚ) * 100 ≤ 100 := by
  have htq : (0 : ℚ) < (total : ℚ) := by exact_mod_cast ht
  have hfq : (free : ℚ) ≤ (total : ℚ) := by exact_mod_cast hf
  have h0q : (0 : ℚ) ≤ (free : ℚ) := by exact_mod_cast h0
  constructor
  · apply mul_nonneg _ (by norm_num)
    apply div_nonneg (by linarith) htq.le
  · have h1 : ((total : ℚ) - (free : ℚ)) / (total : ℚ) ≤ 1 := by
      rw [div_le_one htq]
      linarith
    calc ((total : ℚ) - (free : ℚ)) / (total : ℚ) * 100 ≤ 1 * 100 :=
      mul_le_mul_of_nonneg_right h1 (by norm_num)
    _ = 100 := by norm_num

theorem device_stat_core_bounds (total : ℤ) (ht : 0 < total) (attributed unattributed : ℕ) :
    0 ≤ max 0 (total - (attributed : ℤ) - (unattributed : ℤ)) ∧
    max 0 (total - (attributed : ℤ) - (unattributed : ℤ)) ≤ total ∧
    0 ≤ pyRound1 (((total : ℚ) -
        ((max 0 (total - (attributed : ℤ) - (unattributed : ℤ)) : ℤ) : ℚ)) / (total : ℚ) * 100) ∧
    pyRound1 (((total : ℚ) -
        ((max 0 (total - (attributed : ℤ) - (unattributed : ℤ)) : ℤ) : ℚ)) / (total : ℚ) * 100)
      ≤ 100 := by
  have hfree0 : (0 : ℤ) ≤ max 0 (total - (attributed : ℤ) - (unattributed : ℤ)) :=
    le_max_left _ _
  have hfreet : max 0 (total - (attributed : ℤ) - (unattributed : ℤ)) ≤ total := by
    apply max_le ht.le
    have ha : (0 : ℤ) ≤ (attributed : ℤ) := Int.natCast_nonneg _
    have hu : (0 : ℤ) ≤ (unattributed : ℤ) := Int.natCast_nonneg _
    omega
  obtain ⟨hr0, hr100⟩ := device_percent_raw_bounds ht hfree0 hfreet
  obtain ⟨hp0, hp100⟩ := @pyRound1_bounds _ 0 100 (by exact_mod_cast hr0)
    (by exact_mod_cast hr100)
  refine ⟨hfree0, hfreet, by exact_mod_cast hp0, by exact_mod_cast hp100⟩

theorem docker_device_usage_sum_quotas_bounds (attributed unattributed : ℕ)
    (limits : List (ℤ × ℕ)) :
    0 < (docker_device_usage_sum_quotas attributed unattributed limits).total ∧
    0 ≤ (docker_device_usage_sum_quotas attributed unattributed limits).free ∧
    (docker_device_usage_sum_quotas attributed unattributed limits).free ≤
      (docker_device_usage_sum_quotas attributed unattributed limits).total ∧
    0 ≤ (docker_device_usage_sum_quotas attributed unattributed limits).percent ∧
    (docker_device_usage_sum_quotas attributed unattributed limits).percent ≤ 100 := by
  have ht : (0 : ℤ) <
      max ((limits.map (fun p => (p.2 : ℤ) * 1024)).sum + (unattributed : ℤ)) 1 :=
    lt_max_of_lt_right one_pos
  have hne : max ((limits.map (fun p => (p.2 : ℤ) * 1024)).sum + (unattributed : ℤ)) 1 ≠ 0 :=
    ne_of_gt ht
  obtain ⟨h1, h2, h3, h4⟩ := device_stat_core_bounds _ ht attributed unattributed
  simp only [docker_device_usage_sum_quotas, if_pos hne] at *
  exact ⟨ht, h1, h2, h3, h4⟩

theorem docker_device_usage_bounds (reserved_bytes : Option ℤ) (attributed unattributed : ℕ)
    (limits : List (ℤ × ℕ)) :
    0 < (docker_device_usage reserved_bytes attributed unattributed limits).total ∧
    0 ≤ (docker_device_usage reserved_bytes attributed unattributed limits).free ∧
    (docker_device_usage reserved_bytes attributed unattributed limits).free ≤
      (docker_device_usage reserved_bytes attributed unattributed limits).total ∧
    0 ≤ (docker_device_usage reserved_bytes attributed unattributed limits).percent ∧
    (docker_device_usage reserved_bytes attributed unattributed limits).percent ≤ 100 := by
  match reserved_bytes with
  | none =>
      exact docker_device_usage_sum_quotas_bounds attributed unattributed limits
  | some r =>
      by_cases hr : 0 < r
      · have hne : r ≠ 0 := ne_of_gt hr
        obtain ⟨h1, h2, h3, h4⟩ := device_stat_core_bounds r hr attributed unattributed
        simp only [docker_device_usage, if_pos hr, if_pos hne] at *
        exact ⟨hr, h1, h2, h3, h4⟩
      · simp only [docker_device_usage, if_neg hr]
        exact docker_device_usage_sum_quotas_bounds attributed unattributed limits

/-- C5: non-negativity and bounds. For every input (container sizes, image
sizes, attribution rows, layer rows, user database, limits, and any
`reserved_bytes` setting), the computed `unattributed` value is nonnegative,
and the docker device built from the aggregate has `free ≥ 0`,
`free ≤ total` and `percent ∈ [0, 100]`. -/
theorem c5_nonnegativity_and_bounds (reserved_bytes : Option ℤ)
    (container_sizes image_sizes : List (String × ℕ))
    (attributions : List ContainerRecord) (layer_attributions : LayerTable)
    (pwdb : List (String × ℤ)) (limits : List (ℤ × ℕ)) :
    0 ≤ ((aggregate_usage_by_uid container_sizes image_sizes attributions
        layer_attributions pwdb).2.2 : ℤ) ∧
    0 ≤ (docker_device_usage reserved_bytes
        (sumValues (aggregate_usage_by_uid container_sizes image_sizes attributions
          layer_attributions pwdb).1)
        (aggregate_usage_by_uid container_sizes image_sizes attributions
          layer_attributions pwdb).2.2 limits).free ∧
    (docker_device_usage reserved_bytes
        (sumValues (aggregate_usage_by_uid container_sizes image_sizes attributions
          layer_attributions pwdb).1)
        (aggregate_usage_by_uid container_sizes image_sizes attributions
          layer_attributions pwdb).2.2 limits).free ≤
      (docker_device_usage reserved_bytes
        (sumValues (aggregate_usage_by_uid container_sizes image_sizes attributions
          layer_attributions pwdb).1)
        (aggregate_usage_by_uid container_sizes image_sizes attributions
          layer_attributions pwdb).2.2 limits).total ∧
    0 ≤ (docker_device_usage reserved_bytes
        (sumValues (aggregate_usage_by_uid container_sizes image_sizes attributions
          layer_attributions pwdb).1)
        (aggregate_usage_by_uid container_sizes image_sizes attributions
          layer_attributions pwdb).2.2 limits).percent ∧
    (docker_device_usage reserved_bytes
        (sumValues (aggregate_usage_by_uid container_sizes image_sizes attributions
          layer_attributions pwdb).1)
        (aggregate_usage_by_uid container_sizes image_sizes attributions
          layer_attributions pwdb).2.2 limits).percent ≤ 100 := by
  obtain ⟨_, h2, h3, h4, h5⟩ := docker_device_usage_bounds reserved_bytes
    (sumValues (aggregate_usage_by_uid container_sizes image_sizes attributions
      layer_attributions pwdb).1)
    (aggregate_usage_by_uid container_sizes image_sizes attributions
      layer_attributions pwdb).2.2 limits
  exact ⟨Int.natCast_nonneg _, h2, h3, h4, h5⟩

/-! ## C4: audit time-window matching -/

theorem audit_match_step_of_none_not_in (c : ℚ) (e : ℚ × ℤ) (h : ¬(|e.1 - c| ≤ 120)) :
    audit_match_step c none e = none := by
  simp only [audit_match_step]
  rw [if_neg h]

theorem audit_match_step_of_none_in (c : ℚ) (e : ℚ × ℤ) (h : |e.1 - c| ≤ 120) :
    audit_match_step c none e = some (|e.1 - c|, e.2) := by
  simp only [audit_match_step]
  rw [if_pos h]

theorem audit_match_step_update (c : ℚ) (e : ℚ × ℤ) (bd : ℚ) (bu : ℤ)
    (h : |e.1 - c| ≤ 120 ∧ |e.1 - c| < bd) :
    audit_match_step c (some (bd, bu)) e = some (|e.1 - c|, e.2) := by
  simp only [audit_match_step]
  rw [if_pos h]

theorem audit_match_step_keep (c : ℚ) (e : ℚ × ℤ) (bd : ℚ) (bu : ℤ)
    (h : ¬(|e.1 - c| ≤ 120 ∧ |e.1 - c| < bd)) :
    audit_match_step c (some (bd, bu)) e = some (bd, bu) := by
  simp only [audit_match_step]
  rw [if_neg h]

theorem audit_match_step_eq_none_iff (c : ℚ) (e : ℚ × ℤ) (acc : Option (ℚ × ℤ)) :
    audit_match_step c acc e = none ↔ acc = none ∧ ¬(|e.1 - c| ≤ 120) := by
  rcases acc with _ | ⟨bd, bu⟩
  · by_cases h : |e.1 - c| ≤ 120
    · rw [audit_match_step_of_none_in c e h]
      simp [h]
    · rw [audit_match_step_of_none_not_in c e h]
      simp [h]
  · by_cases h : |e.1 - c| ≤ 120 ∧ |e.1 - c| < bd
    · rw [audit_match_step_update c e bd bu h]
      simp
    · rw [audit_match_step_keep c e bd bu h]
      simp

theorem audit_best_match_aux_none_iff (c : ℚ) (l : List (ℚ × ℤ)) :
    ∀ acc, audit_best_match_aux c l acc = none ↔
      (acc = none ∧ ∀ e ∈ l, ¬(|e.1 - c| ≤ 120)) := by
  induction l with
  | nil =>
      intro acc
      simp [audit_best_match_aux]
  | cons e t ih =>
      intro acc
      simp only [audit_best_match_aux]
      rw [ih (audit_match_step c acc e), audit_match_step_eq_none_iff,
        List.forall_mem_cons]
      tauto

theorem audit_best_match_aux_some_spec (c : ℚ) (l : List (ℚ × ℤ)) :
    ∀ (acc : Option (ℚ × ℤ)) (d : ℚ) (u : ℤ),
      audit_best_match_aux c l acc = some (d, u) →
      (acc = some (d, u) ∧ ∀ e ∈ l, |e.1 - c| ≤ 120 → d ≤ |e.1 - c|) ∨
      (∃ l₁ e l₂, l = l₁ ++ e :: l₂ ∧ e.2 = u ∧ |e.1 - c| = d ∧ d ≤ 120 ∧
        (∀ f ∈ l₁, |f.1 - c| ≤ 120 → d < |f.1 - c|) ∧
        (∀ f ∈ l₂, |f.1 - c| ≤ 120 → d ≤ |f.1 - c|) ∧
        (∀ bd bu, acc = some (bd, bu) → d < bd)) := by
  induction l with
  | nil =>
      intro acc d u h
      left
      simp only [audit_best_match_aux] at h
      exact ⟨h, by simp⟩
  | cons e t ih =>
      intro acc d u h
      simp only [audit_best_match_aux] at h
      rcases ih (audit_match_step c acc e) d u h with
        ⟨hstep, hmin⟩ | ⟨l₁, e', l₂, hsplit, hu, hd, h120, hl₁, hl₂, hacc⟩
      · rcases acc with _ | ⟨bd, bu⟩
        · by_cases he120 : |e.1 - c| ≤ 120
          · rw [audit_match_step_of_none_in c e he120] at hstep
            obtain ⟨hd, hu⟩ : |e.1 - c| = d ∧ e.2 = u := by simpa using hstep
            right
            exact ⟨[], e, t, rfl, hu, hd, hd ▸ he120, by simp, hmin, by simp⟩
          · rw [audit_match_step_of_none_not_in c e he120] at hstep
            exact absurd hstep (by simp)
        · by_cases hcond : |e.1 - c| ≤ 120 ∧ |e.1 - c| < bd
          · rw [audit_match_step_update c e bd bu hcond] at hstep
            obtain ⟨hd, hu⟩ : |e.1 - c| = d ∧ e.2 = u := by simpa using hstep
            right
            refine ⟨[], e, t, rfl, hu, hd, hd ▸ hcond.1, by simp, hmin, ?_⟩
            intro bd' bu' hsome
            obtain ⟨hbd, _⟩ : bd = bd' ∧ bu = bu' := by simpa using hsome
            rw [← hbd, ← hd]
            exact hcond.2
          · rw [audit_match_step_keep c e bd bu hcond] at hstep
            obtain ⟨hbd, hbu⟩ : bd = d ∧ bu = u := by simpa using hstep
            left
            refine ⟨by rw [hbd, hbu], ?_⟩
            rw [List.forall_mem_cons]
            refine ⟨?_, hmin⟩
            intro he120
            have hble : bd ≤ |e.1 - c| := not_lt.mp (fun hlt => hcond ⟨he120, hlt⟩)
            rw [← hbd]
            exact hble
      · right
        refine ⟨e :: l₁, e', l₂, by rw [hsplit, List.cons_append], hu, hd, h120, ?_, hl₂, ?_⟩
        · rw [List.forall_mem_cons]
          refine ⟨?_, hl₁⟩
          intro he120
          rcases acc with _ | ⟨bd, bu⟩
          · exact hacc (|e.1 - c|) e.2 (audit_match_step_of_none_in c e he120)
          · by_cases hcond : |e.1 - c| ≤ 120 ∧ |e.1 - c| < bd
            · exact hacc _ _ (audit_match_step_update c e bd bu hcond)
            · have hdbd : d < bd := hacc bd bu (audit_match_step_keep c e bd bu hcond)
              have hble : bd ≤ |e.1 - c| := not_lt.mp (fun hlt => hcond ⟨he120, hlt⟩)
              linarith
        · intro bd bu hsome
          subst hsome
          by_cases hcond : |e.1 - c| ≤ 120 ∧ |e.1 - c| < bd
          · have hdlt : d < |e.1 - c| :=
              hacc _ _ (audit_match_step_update c e bd bu hcond)
            linarith [hcond.2]
          · exact hacc bd bu (audit_match_step_keep c e bd bu hcond)

/-- C4: audit time-window matching in Phase 1. For every unattributed,
unlabeled container with a valid creation timestamp, the best-match loop of
`sync_containers_from_audit` returns `none` (container left unattributed) when
no usable audit record is within ±120 seconds of the creation time; and when
it returns a uid, that uid belongs to a record within ±120 seconds whose
absolute delta is minimal among all usable records, and every record strictly
earlier in scan order (the time-sorted list) has a strictly larger delta or
lies outside the window — so on an exact tie the earliest record in scan
order wins. -/
theorem c4_audit_time_window_matching (audit_by_ts : List (ℚ × ℤ)) (created_ts : ℚ) :
    ((∀ e ∈ audit_by_ts, ¬(|e.1 - created_ts| ≤ 120)) →
      audit_best_match audit_by_ts created_ts = none) ∧
    (∀ u, audit_best_match audit_by_ts created_ts = some u →
      ∃ l₁ e l₂, audit_by_ts = l₁ ++ e :: l₂ ∧ e.2 = u ∧
        |e.1 - created_ts| ≤ 120 ∧
        (∀ f ∈ audit_by_ts, |f.1 - created_ts| ≤ 120 →
          |e.1 - created_ts| ≤ |f.1 - created_ts|) ∧
        (∀ f ∈ l₁, |f.1 - created_ts| ≤ 120 →
          |e.1 - created_ts| < |f.1 - created_ts|)) := by
  constructor
  · intro hall
    unfold audit_best_match
    rw [(audit_best_match_aux_none_iff created_ts audit_by_ts none).mpr ⟨rfl, hall⟩]
    rfl
  · intro u hu
    unfold audit_best_match at hu
    obtain ⟨⟨d, u'⟩, haux, hsnd⟩ := Option.map_eq_some'.mp hu
    simp only at hsnd
    rw [hsnd] at haux
    rcases audit_best_match_aux_some_spec created_ts audit_by_ts none d u haux with
      ⟨hcontra, _⟩ | ⟨l₁, e, l₂, hsplit, hu2, hd, h120, hl₁, hl₂, _⟩
    · exact absurd hcontra (by simp)
    · refine ⟨l₁, e, l₂, hsplit, hu2, hd ▸ h120, ?_, ?_⟩
      · intro f hf hf120
        rw [hd]
        rw [hsplit] at hf
        rcases List.mem_append.mp hf with hf1 | hf2
        · exact le_of_lt (hl₁ f hf1 hf120)
        · rcases List.mem_cons.mp hf2 with rfl | hf3
          · exact le_of_eq hd.symm
          · exact hl₂ f hf3 hf120
      · intro f hf hf120
        rw [hd]
        exact hl₁ f hf hf120

/-- C4 witness: two records tie at delta 120 around creation time 130; the
earlier record (uid 5) wins over the later one (uid 7). -/
theorem c4_audit_time_window_matching_witness :
    audit_best_match [((10 : ℚ), (5 : ℤ)), ((250 : ℚ), (7 : ℤ))] 130 = some 5 ∧
    (∃ l₁ e l₂, [((10 : ℚ), (5 : ℤ)), ((250 : ℚ), (7 : ℤ))] = l₁ ++ e :: l₂ ∧
      e.2 = 5 ∧ |e.1 - 130| ≤ 120 ∧
      (∀ f ∈ [((10 : ℚ), (5 : ℤ)), ((250 : ℚ), (7 : ℤ))], |f.1 - 130| ≤ 120 →
        |e.1 - 130| ≤ |f.1 - 130|) ∧
      (∀ f ∈ l₁, |f.1 - 130| ≤ 120 → |e.1 - 130| < |f.1 - 130|)) := by
  have hm : audit_best_match [((10 : ℚ), (5 : ℤ)), ((250 : ℚ), (7 : ℤ))] 130 = some 5 := by
    norm_num [audit_best_match, audit_best_match_aux, audit_match_step, abs]
  exact ⟨hm, (c4_audit_time_window_matching [((10 : ℚ), (5 : ℤ)), ((250 : ℚ), (7 : ℤ))] 130).2
    5 hm⟩

end Qman
